import Mathlib

/-!
Verification of the NMEA-0183 RMC sentence handler (`src/gnss/rmc.rs`).

The handler `handle` and its record type `RmcData` are embedded from the
source file. The shared primitive decoders (`pick_number_field`,
`parse_latitude_ddmm_mmm`, `parse_longitude_dddmm_mmm`,
`parse_yymmdd_hhmmss`) and the upstream checksum stripping are not part of
the given source; they are modelled from the specification, as marked on
each definition. Rust `f64` field values are modelled as exact rationals,
and Rust string slices as lists of characters.
-/

namespace Nmea

/-- Navigation system tag attached to each decoded record (from `NavigationSystem` in the crate; the exact constructor list is irrelevant to the handler, which treats it opaquely). -/
inductive NavigationSystem
  | Combined
  | Gps
  | Glonass
  | Galileo
  | Beidou
  | Other
deriving DecidableEq

/-- Utc timestamp with calendar fields, modelling `DateTime<Utc>` values built from validated year/month/day/hour/minute/second components. -/
structure UtcDateTime where
  year : Nat
  month : Nat
  day : Nat
  hour : Nat
  minute : Nat
  second : Nat
deriving DecidableEq

/-- Embeds the `RmcData` struct of `rmc.rs`: every attribute after the source tag is independently optional. `f64` is modelled as `ℚ`. -/
structure RmcData where
  source : NavigationSystem
  timestamp : Option UtcDateTime
  status_active : Option Bool
  latitude : Option ℚ
  longitude : Option ℚ
  sog_knots : Option ℚ
  bearing : Option ℚ
  variation : Option ℚ
deriving DecidableEq

/-- Embeds the tagged result variants relevant to the RMC handler: a constructed record, or the incomplete sentinel (other sentence kinds of the crate are omitted; the handler never produces them). -/
inductive ParsedMessage
  | Rmc (data : RmcData)
  | Incomplete
deriving DecidableEq

/-- Embeds `ParseError`, which in the crate wraps a descriptive message string. -/
abbrev ParseError := String

/-- Embeds `sentence.split(',')` on a character list: split on commas, preserving empty substrings. -/
def splitFields : List Char → List (List Char)
  | [] => [[]]
  | c :: rest =>
    if c = ',' then [] :: splitFields rest
    else
      match splitFields rest with
      | f :: fs => (c :: f) :: fs
      | [] => [[c]]

/-- Embeds `split.get(i).unwrap_or(&"")`: field access past the end of the token list yields the empty field. -/
def getField (fields : List (List Char)) (i : Nat) : List Char :=
  fields.getD i []

/-- Helper for stating field-independence properties: overwrite position `i` with `v`, padding with empty fields if the list is shorter. -/
def setField : List (List Char) → Nat → List Char → List (List Char)
  | [], 0, v => [v]
  | [], n + 1, v => [] :: setField [] n v
  | _ :: fs, 0, v => v :: fs
  | f :: fs, n + 1, v => f :: setField fs n v

/-- Numeric value of a digit character. -/
def digitVal (c : Char) : Nat := c.toNat - '0'.toNat

/-- Natural number denoted by a digit string, most significant digit first. -/
def natOfDigits (ds : List Char) : Nat :=
  ds.foldl (fun a c => a * 10 + digitVal c) 0

/-- Modelled from the spec: the decimal-numeral grammar accepted by the numeral field decoder (§4.2 "parses as the target numeral"), without a leading sign: digits, or digits with a decimal point, at least one digit overall. -/
def parseUnsigned (body : List Char) : Option ℚ :=
  let intPart := body.takeWhile Char.isDigit
  let rest := body.drop intPart.length
  match rest with
  | [] => if intPart.isEmpty then none else some ((natOfDigits intPart : ℕ) : ℚ)
  | '.' :: frac =>
    if frac.all Char.isDigit && (!intPart.isEmpty || !frac.isEmpty) then
      some (((natOfDigits intPart : ℕ) : ℚ) + ((natOfDigits frac : ℕ) : ℚ) / (((10 : ℕ) ^ frac.length : ℕ) : ℚ))
    else
      none
  | _ => none

/-- Modelled from the spec: a decimal numeral with an optional leading sign (§4.2). -/
def parseDecimal (s : List Char) : Option ℚ :=
  match s with
  | '-' :: body => (parseUnsigned body).map (fun q => -q)
  | '+' :: body => parseUnsigned body
  | body => parseUnsigned body

/-- Modelled from the spec: the optional numeral decoder `pick_number_field` (§4.2): empty field yields `None`, an unparsable non-empty field is a decode failure naming the field position, a parsable field yields its value. -/
def pick_number_field (fields : List (List Char)) (i : Nat) : Except ParseError (Option ℚ) :=
  let s := getField fields i
  if s = [] then
    .ok none
  else
    match parseDecimal s with
    | some v => .ok (some v)
    | none => .error ("Failed to parse field " ++ toString i)

/-- Modelled from the spec: the degrees-minutes numeral of the sexagesimal coordinate decoder (§4.4): the last two digits before the decimal point are whole minutes, the digits before them whole degrees; fewer than two digits before the decimal point, or a malformed number, is a failure (`none`). -/
def parse_dm_value (s : List Char) : Option ℚ :=
  let intPart := s.takeWhile Char.isDigit
  let rest := s.drop intPart.length
  let fracOpt : Option ℚ :=
    match rest with
    | [] => some 0
    | '.' :: frac =>
      if frac.all Char.isDigit then
        some (((natOfDigits frac : ℕ) : ℚ) / (((10 : ℕ) ^ frac.length : ℕ) : ℚ))
      else
        none
    | _ => none
  match fracOpt with
  | none => none
  | some fv =>
    if 2 ≤ intPart.length then
      some (((natOfDigits (intPart.take (intPart.length - 2)) : ℕ) : ℚ)
        + (((natOfDigits (intPart.drop (intPart.length - 2)) : ℕ) : ℚ) + fv) / 60)
    else
      none

/-- Modelled from the spec: the latitude decoder `parse_latitude_ddmm_mmm` (§4.4): empty numeral yields `None`; with a numeral present, a hemisphere letter outside `N`/`S` is a failure, a malformed numeral is a failure, and otherwise the result is signed decimal degrees, negated for `S`. -/
def parse_latitude_ddmm_mmm (lat hemi : List Char) : Except ParseError (Option ℚ) :=
  if lat = [] then
    .ok none
  else
    match hemi with
    | ['N'] =>
      match parse_dm_value lat with
      | some v => .ok (some v)
      | none => .error ("Invalid latitude value: " ++ String.mk lat)
    | ['S'] =>
      match parse_dm_value lat with
      | some v => .ok (some (-v))
      | none => .error ("Invalid latitude value: " ++ String.mk lat)
    | _ => .error ("Invalid latitude hemisphere: " ++ String.mk hemi)

/-- Modelled from the spec: the longitude decoder `parse_longitude_dddmm_mmm` (§4.4), as for latitude with hemisphere letters `E`/`W` and negation for `W`. -/
def parse_longitude_dddmm_mmm (lon hemi : List Char) : Except ParseError (Option ℚ) :=
  if lon = [] then
    .ok none
  else
    match hemi with
    | ['E'] =>
      match parse_dm_value lon with
      | some v => .ok (some v)
      | none => .error ("Invalid longitude value: " ++ String.mk lon)
    | ['W'] =>
      match parse_dm_value lon with
      | some v => .ok (some (-v))
      | none => .error ("Invalid longitude value: " ++ String.mk lon)
    | _ => .error ("Invalid longitude hemisphere: " ++ String.mk hemi)

/-- Gregorian leap-year rule, for validating calendar components. -/
def isLeapYear (y : Nat) : Bool :=
  (y % 4 == 0 && y % 100 != 0) || y % 400 == 0

/-- Number of days in a month of a given year. -/
def daysInMonth (y m : Nat) : Nat :=
  if m = 2 then (if isLeapYear y then 29 else 28)
  else if m = 4 ∨ m = 6 ∨ m = 9 ∨ m = 11 then 30
  else 31

/-- Modelled from the spec: the composite date-time decoder `parse_yymmdd_hhmmss` (§4.3): a six-digit `DDMMYY` date and a six-digit `HHMMSS` time, two-digit year in the current century window, combined into one Utc timestamp; empty or invalid components are a decode failure (which the handler then treats leniently). -/
def parse_yymmdd_hhmmss (date time : List Char) : Except ParseError UtcDateTime :=
  if date.length = 6 ∧ time.length = 6 ∧ date.all Char.isDigit ∧ time.all Char.isDigit then
    let dd := natOfDigits (date.take 2)
    let mm := natOfDigits ((date.drop 2).take 2)
    let yy := natOfDigits (date.drop 4)
    let hh := natOfDigits (time.take 2)
    let mi := natOfDigits ((time.drop 2).take 2)
    let ss := natOfDigits (time.drop 4)
    let year := 2000 + yy
    if 1 ≤ mm ∧ mm ≤ 12 ∧ 1 ≤ dd ∧ dd ≤ daysInMonth year mm ∧ hh ≤ 23 ∧ mi ≤ 59 ∧ ss ≤ 59 then
      .ok ⟨year, mm, dd, hh, mi, ss⟩
    else
      .error "Invalid date-time components"
  else
    .error "Invalid date-time format"

/-- Embeds the `status_active` block of `handle` (rmc.rs lines 70-81): `A` and `D` are active, `V` is void, the empty field is `None`, and anything else is a decode failure. -/
def decodeStatus (s : List Char) : Except ParseError (Option Bool) :=
  match s with
  | ['A'] => .ok (some true)
  | ['D'] => .ok (some true)
  | ['V'] => .ok (some false)
  | [] => .ok none
  | other => .error ("Invalid RMC navigation receiver status: " ++ String.mk other)

/-- Embeds the `variation` block of `handle` (rmc.rs lines 92-105): numeral field 10 decoded optionally; when a value is present, the side letter at field 11 must be `E` (positive) or `W` (negated), anything else is a decode failure; when absent, the result is `None`. -/
def decodeVariation (fields : List (List Char)) : Except ParseError (Option ℚ) :=
  match pick_number_field fields 10 with
  | .error e => .error e
  | .ok (some val) =>
    match getField fields 11 with
    | ['E'] => .ok (some val)
    | ['W'] => .ok (some (-val))
    | side => .error ("Invalid RMC variation side: " ++ String.mk side)
  | .ok none => .ok none

/-- Embeds the body of `handle` (rmc.rs lines 60-107) on the token list: sub-decoders are applied at the fixed field positions, in the evaluation order of the Rust struct expression, and the first failure aborts the call (the `?` operator and the explicit `return Err`). -/
def handleFields (fields : List (List Char)) (nav_system : NavigationSystem) : Except ParseError ParsedMessage :=
  let timestamp := (parse_yymmdd_hhmmss (getField fields 9) (getField fields 1)).toOption
  match decodeStatus (getField fields 2) with
  | .error e => .error e
  | .ok status_active =>
    match parse_latitude_ddmm_mmm (getField fields 3) (getField fields 4) with
    | .error e => .error e
    | .ok latitude =>
      match parse_longitude_dddmm_mmm (getField fields 5) (getField fields 6) with
      | .error e => .error e
      | .ok longitude =>
        match pick_number_field fields 7 with
        | .error e => .error e
        | .ok sog_knots =>
          match pick_number_field fields 8 with
          | .error e => .error e
          | .ok bearing =>
            match decodeVariation fields with
            | .error e => .error e
            | .ok variation =>
              .ok (ParsedMessage.Rmc
                ⟨nav_system, timestamp, status_active, latitude, longitude, sog_knots, bearing, variation⟩)

/-- Embeds `handle(sentence, nav_system)`: tokenize the sentence text on commas, then decode the positional fields. -/
def handle (sentence : String) (nav_system : NavigationSystem) : Except ParseError ParsedMessage :=
  handleFields (splitFields sentence.data) nav_system

/-- Modelled from the spec: the upstream sentence extractor (§6, out-of-scope collaborator) validates the checksum and strips the `*hh` suffix before dispatching to the handler. -/
def parse_sentence (s : String) (nav_system : NavigationSystem) : Except ParseError ParsedMessage :=
  handle (String.mk (s.data.takeWhile (fun c => c ≠ '*'))) nav_system

/-! ### Tokenizer lemmas -/

theorem splitFields_ne_nil (cs : List Char) : splitFields cs ≠ [] := by
  cases cs with
  | nil => simp [splitFields]
  | cons c rest =>
    by_cases h : c = ','
    · simp [splitFields, h]
    · simp only [splitFields, if_neg h]
      cases splitFields rest <;> simp

theorem splitFields_append_comma (cs : List Char) :
    splitFields (cs ++ [',']) = splitFields cs ++ [[]] := by
  induction cs with
  | nil => simp [splitFields]
  | cons c rest ih =>
    by_cases h : c = ','
    · simp [splitFields, h, ih]
    · rcases hr : splitFields rest with _ | ⟨f, fs⟩
      · exact absurd hr (splitFields_ne_nil rest)
      · simp only [List.cons_append, splitFields, if_neg h, List.append_eq]
        rw [ih, hr]
        simp

theorem splitFields_append_commas (cs : List Char) (k : Nat) :
    splitFields (cs ++ List.replicate k ',') = splitFields cs ++ List.replicate k [] := by
  induction k generalizing cs with
  | zero => simp
  | succ n ih =>
    have : cs ++ List.replicate (n + 1) ',' = (cs ++ [',']) ++ List.replicate n ',' := by
      simp [List.replicate_succ]
    rw [this, ih, splitFields_append_comma, List.replicate_succ]
    simp

theorem splitFields_eq_splitOn (cs : List Char) : splitFields cs = cs.splitOn ',' := by
  induction cs with
  | nil => rfl
  | cons c rest ih =>
    by_cases h : c = ','
    · simp [splitFields, h, List.splitOn, ih]
    · rcases hr : splitFields rest with _ | ⟨f, fs⟩
      · exact absurd hr (splitFields_ne_nil rest)
      · simp only [splitFields, if_neg h, hr, List.splitOn, List.splitOnP_cons,
          beq_iff_eq, if_neg h]
        rw [← List.splitOn, ← ih, hr]
        rfl

theorem splitFields_no_comma (cs : List Char) : ∀ f ∈ splitFields cs, ',' ∉ f := by
  induction cs with
  | nil => intro f hf; simp [splitFields] at hf; simp [hf]
  | cons c rest ih =>
    intro f hf
    by_cases h : c = ','
    · simp only [splitFields, if_pos h, List.mem_cons] at hf
      rcases hf with hf | hf
      · simp [hf]
      · exact ih f hf
    · rcases hr : splitFields rest with _ | ⟨g, gs⟩
      · exact absurd hr (splitFields_ne_nil rest)
      · simp only [splitFields, if_neg h, hr, List.mem_cons] at hf
        rcases hf with hf | hf
        · subst hf
          intro hmem
          rcases List.mem_cons.1 hmem with hc | hc
          · exact h hc.symm
          · exact ih g (by rw [hr]; exact List.mem_cons_self g gs) hc
        · exact ih f (by rw [hr]; exact List.mem_cons_of_mem g hf)

/-! ### Field access lemmas -/

theorem getField_append_replicate (fs : List (List Char)) (k i : Nat) :
    getField (fs ++ List.replicate k []) i = getField fs i := by
  unfold getField
  rcases lt_or_le i fs.length with h | h
  · rw [List.getD_eq_getElem?_getD, List.getD_eq_getElem?_getD,
      List.getElem?_append_left h]
  · rw [List.getD_eq_getElem?_getD, List.getD_eq_getElem?_getD]
    rw [List.getElem?_len_le h, List.getElem?_append_right h]
    rcases lt_or_le (i - fs.length) k with h2 | h2
    · rw [List.getElem?_replicate, if_pos h2]
      rfl
    · rw [List.getElem?_len_le (by simpa using h2)]

theorem getField_setField (fs : List (List Char)) (i j : Nat) (v : List Char) :
    getField (setField fs i v) j = if i = j then v else getField fs j := by
  induction fs generalizing i j with
  | nil =>
    induction i generalizing j with
    | zero =>
      cases j <;> simp [setField, getField, List.getD]
    | succ n ih =>
      cases j with
      | zero => simp [setField, getField, List.getD]
      | succ m =>
        simp only [setField, getField, List.getD_cons_succ]
        have h' := ih m
        simp only [getField] at h'
        rw [h']
        rcases eq_or_ne n m with hnm | hnm
        · simp [hnm]
        · rw [if_neg hnm, if_neg (by omega)]
          simp [List.getD]
  | cons f fs ihf =>
    cases i with
    | zero =>
      cases j <;> simp [setField, getField, List.getD]
    | succ n =>
      cases j with
      | zero => simp [setField, getField, List.getD]
      | succ m =>
        simp only [setField, getField, List.getD_cons_succ]
        have h' := ihf n m
        simp only [getField] at h'
        rw [h']
        rcases eq_or_ne n m with hnm | hnm
        · simp [hnm]
        · rw [if_neg hnm, if_neg (by omega)]

/-! ### Handler structure lemmas -/

theorem pick_number_field_congr (f g : List (List Char)) (i : Nat)
    (h : getField f i = getField g i) : pick_number_field f i = pick_number_field g i := by
  simp only [pick_number_field, h]

theorem decodeVariation_congr (f g : List (List Char))
    (h10 : getField f 10 = getField g 10) (h11 : getField f 11 = getField g 11) :
    decodeVariation f = decodeVariation g := by
  simp only [decodeVariation, pick_number_field_congr f g 10 h10, h11]

theorem handleFields_congr (f g : List (List Char)) (nav : NavigationSystem)
    (h : ∀ i, 1 ≤ i → i ≤ 11 → getField f i = getField g i) :
    handleFields f nav = handleFields g nav := by
  have h1 := h 1 (by norm_num) (by norm_num)
  have h2 := h 2 (by norm_num) (by norm_num)
  have h3 := h 3 (by norm_num) (by norm_num)
  have h4 := h 4 (by norm_num) (by norm_num)
  have h5 := h 5 (by norm_num) (by norm_num)
  have h6 := h 6 (by norm_num) (by norm_num)
  have h7 := h 7 (by norm_num) (by norm_num)
  have h8 := h 8 (by norm_num) (by norm_num)
  have h9 := h 9 (by norm_num) (by norm_num)
  have h10 := h 10 (by norm_num) (by norm_num)
  have h11 := h 11 (by norm_num) (by norm_num)
  simp only [handleFields, pick_number_field, decodeVariation,
    h1, h2, h3, h4, h5, h6, h7, h8, h9, h10, h11]

/-- Inversion principle for the handler: a successful call is exactly a record whose every attribute is the result of the corresponding sub-decoder at its fixed field position. -/
theorem handleFields_ok_iff (fields : List (List Char)) (nav : NavigationSystem)
    (m : ParsedMessage) :
    handleFields fields nav = .ok m ↔
      ∃ st lat lon sog br va,
        decodeStatus (getField fields 2) = .ok st ∧
        parse_latitude_ddmm_mmm (getField fields 3) (getField fields 4) = .ok lat ∧
        parse_longitude_dddmm_mmm (getField fields 5) (getField fields 6) = .ok lon ∧
        pick_number_field fields 7 = .ok sog ∧
        pick_number_field fields 8 = .ok br ∧
        decodeVariation fields = .ok va ∧
        m = .Rmc ⟨nav, (parse_yymmdd_hhmmss (getField fields 9) (getField fields 1)).toOption,
          st, lat, lon, sog, br, va⟩ := by
  rcases hst : decodeStatus (getField fields 2) with e | st
  · simp [handleFields, hst]
  · rcases hlat : parse_latitude_ddmm_mmm (getField fields 3) (getField fields 4) with e | lat
    · simp [handleFields, hst, hlat]
    · rcases hlon : parse_longitude_dddmm_mmm (getField fields 5) (getField fields 6) with e | lon
      · simp [handleFields, hst, hlat, hlon]
      · rcases hsog : pick_number_field fields 7 with e | sog
        · simp [handleFields, hst, hlat, hlon, hsog]
        · rcases hbr : pick_number_field fields 8 with e | br
          · simp [handleFields, hst, hlat, hlon, hsog, hbr]
          · rcases hva : decodeVariation fields with e | va
            · simp [handleFields, hst, hlat, hlon, hsog, hbr, hva]
            · simp only [handleFields, hst, hlat, hlon, hsog, hbr, hva]
              constructor
              · rintro h
                exact ⟨st, lat, lon, sog, br, va, rfl, rfl, rfl, rfl, rfl, rfl, by
                  cases h; rfl⟩
              · rintro ⟨st', lat', lon', sog', br', va', hst', hlat', hlon', hsog', hbr', hva', hm⟩
                cases hst'; cases hlat'; cases hlon'; cases hsog'; cases hbr'; cases hva'
                rw [hm]

/-- Projection form of the inversion principle: each attribute of a successfully decoded record is the result of its sub-decoder at the fixed field positions. -/
theorem handleFields_ok_projections (fields : List (List Char)) (nav : NavigationSystem)
    (r : RmcData) (h : handleFields fields nav = .ok (.Rmc r)) :
    r.source = nav ∧
    r.timestamp = (parse_yymmdd_hhmmss (getField fields 9) (getField fields 1)).toOption ∧
    decodeStatus (getField fields 2) = .ok r.status_active ∧
    parse_latitude_ddmm_mmm (getField fields 3) (getField fields 4) = .ok r.latitude ∧
    parse_longitude_dddmm_mmm (getField fields 5) (getField fields 6) = .ok r.longitude ∧
    pick_number_field fields 7 = .ok r.sog_knots ∧
    pick_number_field fields 8 = .ok r.bearing ∧
    decodeVariation fields = .ok r.variation := by
  obtain ⟨st, lat, lon, sog, br, va, h1, h2, h3, h4, h5, h6, hm⟩ :=
    (handleFields_ok_iff fields nav _).1 h
  injection hm with hr
  subst hr
  exact ⟨rfl, rfl, h1, h2, h3, h4, h5, h6⟩

/-- Totality of the tagged result: the handler yields a record or an error, nothing else. -/
theorem handleFields_cases (fields : List (List Char)) (nav : NavigationSystem) :
    (∃ r, handleFields fields nav = .ok (.Rmc r)) ∨
      (∃ e, handleFields fields nav = .error e) := by
  rcases hh : handleFields fields nav with e | m
  · exact Or.inr ⟨e, rfl⟩
  · obtain ⟨st, lat, lon, sog, br, va, _, _, _, _, _, _, hm⟩ :=
      (handleFields_ok_iff fields nav m).1 hh
    subst hm
    exact Or.inl ⟨_, rfl⟩

theorem exists_error_of_no_ok (fields : List (List Char)) (nav : NavigationSystem)
    (h : ∀ m, handleFields fields nav ≠ .ok m) :
    ∃ e, handleFields fields nav = .error e := by
  rcases hh : handleFields fields nav with e | m
  · exact ⟨e, rfl⟩
  · exact absurd hh (h m)

/-! ### Characterizations of the primitive decoders -/

theorem parseDecimal_nil : parseDecimal [] = none := rfl

theorem decodeStatus_ok_none_iff (s : List Char) : decodeStatus s = .ok none ↔ s = [] := by
  unfold decodeStatus
  split <;> simp_all

theorem decodeStatus_error_of_invalid (s : List Char) (h0 : s ≠ []) (hA : s ≠ ['A'])
    (hD : s ≠ ['D']) (hV : s ≠ ['V']) :
    decodeStatus s = .error ("Invalid RMC navigation receiver status: " ++ String.mk s) := by
  unfold decodeStatus
  split <;> simp_all

theorem parse_latitude_ok_none_iff (lat hemi : List Char) :
    parse_latitude_ddmm_mmm lat hemi = .ok none ↔ lat = [] := by
  by_cases h : lat = []
  · simp [parse_latitude_ddmm_mmm, h]
  · simp only [parse_latitude_ddmm_mmm, if_neg h]
    constructor
    · intro hc
      exfalso
      revert hc
      split <;> (try split) <;> simp
    · intro hc
      exact absurd hc h

theorem parse_longitude_ok_none_iff (lon hemi : List Char) :
    parse_longitude_dddmm_mmm lon hemi = .ok none ↔ lon = [] := by
  by_cases h : lon = []
  · simp [parse_longitude_dddmm_mmm, h]
  · simp only [parse_longitude_dddmm_mmm, if_neg h]
    constructor
    · intro hc
      exfalso
      revert hc
      split <;> (try split) <;> simp
    · intro hc
      exact absurd hc h

theorem parse_latitude_error_of_invalid (lat hemi : List Char) (h0 : lat ≠ [])
    (h : parse_dm_value lat = none ∨ hemi ∉ ([[ 'N'], ['S']] : List (List Char))) :
    ∃ e, parse_latitude_ddmm_mmm lat hemi = .error e := by
  simp only [parse_latitude_ddmm_mmm, if_neg h0]
  rcases h with hdm | hh
  · split
    · rw [hdm]; exact ⟨_, rfl⟩
    · rw [hdm]; exact ⟨_, rfl⟩
    · exact ⟨_, rfl⟩
  · split <;> simp_all

theorem parse_longitude_error_of_invalid (lon hemi : List Char) (h0 : lon ≠ [])
    (h : parse_dm_value lon = none ∨ hemi ∉ ([[ 'E'], ['W']] : List (List Char))) :
    ∃ e, parse_longitude_dddmm_mmm lon hemi = .error e := by
  simp only [parse_longitude_dddmm_mmm, if_neg h0]
  rcases h with hdm | hh
  · split
    · rw [hdm]; exact ⟨_, rfl⟩
    · rw [hdm]; exact ⟨_, rfl⟩
    · exact ⟨_, rfl⟩
  · split <;> simp_all

theorem pick_number_field_ok_none_iff (fields : List (List Char)) (i : Nat) :
    pick_number_field fields i = .ok none ↔ getField fields i = [] := by
  by_cases h : getField fields i = []
  · simp [pick_number_field, h]
  · simp only [pick_number_field, if_neg h]
    constructor
    · intro hc
      exfalso
      revert hc
      split <;> simp
    · intro hc
      exact absurd hc h

theorem pick_number_field_error_of_unparsable (fields : List (List Char)) (i : Nat)
    (h0 : getField fields i ≠ []) (h : parseDecimal (getField fields i) = none) :
    pick_number_field fields i = .error ("Failed to parse field " ++ toString i) := by
  simp [pick_number_field, if_neg h0, h]

theorem pick_number_field_ok_some (fields : List (List Char)) (i : Nat) (v : ℚ)
    (h : parseDecimal (getField fields i) = some v) :
    pick_number_field fields i = .ok (some v) := by
  have h0 : getField fields i ≠ [] := by
    intro hc
    rw [hc, parseDecimal_nil] at h
    cases h
  simp [pick_number_field, if_neg h0, h]

theorem decodeVariation_ok_none_iff (fields : List (List Char)) :
    decodeVariation fields = .ok none ↔ getField fields 10 = [] := by
  rcases hp : pick_number_field fields 10 with e | v
  · have h0 : getField fields 10 ≠ [] := by
      intro hc
      rw [(pick_number_field_ok_none_iff fields 10).2 hc] at hp
      cases hp
    simp [decodeVariation, hp, h0]
  · rcases v with _ | val
    · have h0 := (pick_number_field_ok_none_iff fields 10).1 hp
      simp [decodeVariation, hp, h0]
    · have h0 : getField fields 10 ≠ [] := by
        intro hc
        rw [(pick_number_field_ok_none_iff fields 10).2 hc] at hp
        cases hp
      simp only [decodeVariation, hp]
      split <;> simp [h0]

theorem decodeVariation_error_of_bad_side (fields : List (List Char)) (v : ℚ)
    (hv : parseDecimal (getField fields 10) = some v)
    (hs : getField fields 11 ∉ ([[ 'E'], ['W']] : List (List Char))) :
    ∃ e, decodeVariation fields = .error e := by
  have hp := pick_number_field_ok_some fields 10 v hv
  simp only [decodeVariation, hp]
  split <;> simp_all

theorem decodeVariation_ok_of_side_E (fields : List (List Char)) (v : ℚ)
    (hv : parseDecimal (getField fields 10) = some v)
    (hs : getField fields 11 = ['E']) :
    decodeVariation fields = .ok (some v) := by
  have hp := pick_number_field_ok_some fields 10 v hv
  simp [decodeVariation, hp, hs]

theorem decodeVariation_ok_of_side_W (fields : List (List Char)) (v : ℚ)
    (hv : parseDecimal (getField fields 10) = some v)
    (hs : getField fields 11 = ['W']) :
    decodeVariation fields = .ok (some (-v)) := by
  have hp := pick_number_field_ok_some fields 10 v hv
  simp [decodeVariation, hp, hs]

/-! ### Claims -/

/-- Claim C1: for every token list, the status field at position 2 decodes as: `A` yields `Some(true)`, `D` yields `Some(true)`, `V` yields `Some(false)`, the empty field yields `None`, and any other non-empty value makes the whole handler call return a decode failure. -/
theorem rmc_status_field_decode (fields : List (List Char)) (nav : NavigationSystem) :
    (getField fields 2 = ['A'] →
      ∀ r, handleFields fields nav = .ok (.Rmc r) → r.status_active = some true) ∧
    (getField fields 2 = ['D'] →
      ∀ r, handleFields fields nav = .ok (.Rmc r) → r.status_active = some true) ∧
    (getField fields 2 = ['V'] →
      ∀ r, handleFields fields nav = .ok (.Rmc r) → r.status_active = some false) ∧
    (getField fields 2 = [] →
      ∀ r, handleFields fields nav = .ok (.Rmc r) → r.status_active = none) ∧
    (getField fields 2 ≠ [] → getField fields 2 ≠ ['A'] → getField fields 2 ≠ ['D'] →
      getField fields 2 ≠ ['V'] → ∃ e, handleFields fields nav = .error e) := by
  refine ⟨?_, ?_, ?_, ?_, ?_⟩
  · intro h r hok
    have hp := (handleFields_ok_projections fields nav r hok).2.2.1
    rw [h] at hp
    simp [decodeStatus] at hp
    exact hp.symm
  · intro h r hok
    have hp := (handleFields_ok_projections fields nav r hok).2.2.1
    rw [h] at hp
    simp [decodeStatus] at hp
    exact hp.symm
  · intro h r hok
    have hp := (handleFields_ok_projections fields nav r hok).2.2.1
    rw [h] at hp
    simp [decodeStatus] at hp
    exact hp.symm
  · intro h r hok
    have hp := (handleFields_ok_projections fields nav r hok).2.2.1
    rw [h] at hp
    simp [decodeStatus] at hp
    exact hp.symm
  · intro h0 hA hD hV
    have he := decodeStatus_error_of_invalid _ h0 hA hD hV
    refine ⟨"Invalid RMC navigation receiver status: " ++ String.mk (getField fields 2), ?_⟩
    simp [handleFields, he]

/-- Witness for C1: in a token list with status field `A` and every other field empty, the handler succeeds and the record's status is `Some(true)`. -/
theorem rmc_status_field_decode_witness :
    getField [[], [], ['A']] 2 = ['A'] ∧
    handleFields [[], [], ['A']] NavigationSystem.Gps =
      .ok (.Rmc ⟨NavigationSystem.Gps, none, some true, none, none, none, none, none⟩) ∧
    (⟨NavigationSystem.Gps, none, some true, none, none, none, none, none⟩
        : RmcData).status_active = some true :=
  ⟨rfl, rfl, (rmc_status_field_decode [[], [], ['A']] NavigationSystem.Gps).1 rfl _ rfl⟩

/-- Claim C3: the variation decodes as: empty magnitude field (position 10) yields `None`; a parsed magnitude with sign letter `E` at position 11 yields the value, with `W` the negated value, and with any other sign the whole handler call returns a decode failure. -/
theorem rmc_variation_decode (fields : List (List Char)) (nav : NavigationSystem) :
    (getField fields 10 = [] →
      ∀ r, handleFields fields nav = .ok (.Rmc r) → r.variation = none) ∧
    (∀ v, parseDecimal (getField fields 10) = some v →
      (getField fields 11 = ['E'] →
        ∀ r, handleFields fields nav = .ok (.Rmc r) → r.variation = some v) ∧
      (getField fields 11 = ['W'] →
        ∀ r, handleFields fields nav = .ok (.Rmc r) → r.variation = some (-v)) ∧
      (getField fields 11 ≠ ['E'] → getField fields 11 ≠ ['W'] →
        ∃ e, handleFields fields nav = .error e)) := by
  constructor
  · intro h r hok
    have hp := (handleFields_ok_projections fields nav r hok).2.2.2.2.2.2.2
    rw [(decodeVariation_ok_none_iff fields).2 h] at hp
    injection hp with hv
    exact hv.symm
  · intro v hv
    refine ⟨?_, ?_, ?_⟩
    · intro hs r hok
      have hp := (handleFields_ok_projections fields nav r hok).2.2.2.2.2.2.2
      rw [decodeVariation_ok_of_side_E fields v hv hs] at hp
      injection hp with h
      exact h.symm
    · intro hs r hok
      have hp := (handleFields_ok_projections fields nav r hok).2.2.2.2.2.2.2
      rw [decodeVariation_ok_of_side_W fields v hv hs] at hp
      injection hp with h
      exact h.symm
    · intro hE hW
      obtain ⟨e0, he0⟩ := decodeVariation_error_of_bad_side fields v hv (by simp [hE, hW])
      apply exists_error_of_no_ok
      intro m hm
      obtain ⟨st, lat, lon, sog, br, va, _, _, _, _, _, h6, _⟩ :=
        (handleFields_ok_iff fields nav m).1 hm
      rw [he0] at h6
      cases h6

/-- Witness for C3: a token list with magnitude `20` and sign `E` decodes with variation `20`. -/
theorem rmc_variation_decode_witness :
    parseDecimal ['2', '0'] = some ((20 : ℕ) : ℚ) ∧
    handleFields [[], [], ['A'], [], [], [], [], [], [], [], ['2', '0'], ['E']]
        NavigationSystem.Gps =
      .ok (.Rmc ⟨NavigationSystem.Gps, none, some true, none, none, none, none,
        some ((20 : ℕ) : ℚ)⟩) ∧
    (⟨NavigationSystem.Gps, none, some true, none, none, none, none,
        some ((20 : ℕ) : ℚ)⟩ : RmcData).variation = some ((20 : ℕ) : ℚ) :=
  ⟨rfl, rfl,
    ((rmc_variation_decode [[], [], ['A'], [], [], [], [], [], [], [], ['2', '0'], ['E']]
      NavigationSystem.Gps).2 _ rfl).1 rfl _ rfl⟩

/-- Claim C4: if the date substring (position 9) and time substring (position 1) fail to combine into a timestamp, the handler behaves exactly as if both were empty — in particular a malformed or missing date or time never causes the call to fail — and any successfully decoded record carries timestamp `None`. -/
theorem rmc_datetime_leniency (fields : List (List Char)) (nav : NavigationSystem)
    (h : (parse_yymmdd_hhmmss (getField fields 9) (getField fields 1)).toOption = none) :
    handleFields fields nav = handleFields (setField (setField fields 1 []) 9 []) nav ∧
    (∀ r, handleFields fields nav = .ok (.Rmc r) → r.timestamp = none) := by
  constructor
  · have g : ∀ i, i ≠ 1 → i ≠ 9 →
        getField (setField (setField fields 1 []) 9 []) i = getField fields i := by
      intro i h1 h9
      rw [getField_setField, getField_setField]
      rw [if_neg (fun hc => h9 hc.symm), if_neg (fun hc => h1 hc.symm)]
    have g1 : getField (setField (setField fields 1 []) 9 []) 1 = [] := by
      rw [getField_setField, if_neg (by norm_num), getField_setField, if_pos rfl]
    have g9 : getField (setField (setField fields 1 []) 9 []) 9 = [] := by
      rw [getField_setField, if_pos rfl]
    have hblank : (parse_yymmdd_hhmmss ([] : List Char) ([] : List Char)).toOption = none := rfl
    simp only [handleFields, pick_number_field, decodeVariation,
      g 2 (by norm_num) (by norm_num), g 3 (by norm_num) (by norm_num),
      g 4 (by norm_num) (by norm_num), g 5 (by norm_num) (by norm_num),
      g 6 (by norm_num) (by norm_num), g 7 (by norm_num) (by norm_num),
      g 8 (by norm_num) (by norm_num), g 10 (by norm_num) (by norm_num),
      g 11 (by norm_num) (by norm_num), g1, g9, h, hblank]
  · intro r hok
    have hp := (handleFields_ok_projections fields nav r hok).2.1
    rw [hp, h]

/-- Witness for C4: with time field `x` (unparsable) and no date field, the handler's result coincides with the result on blanked date and time fields. -/
theorem rmc_datetime_leniency_witness :
    (parse_yymmdd_hhmmss (getField [[], ['x'], ['A']] 9) (getField [[], ['x'], ['A']] 1)).toOption
      = none ∧
    handleFields [[], ['x'], ['A']] NavigationSystem.Gps =
      handleFields (setField (setField [[], ['x'], ['A']] 1 []) 9 []) NavigationSystem.Gps :=
  ⟨rfl, (rmc_datetime_leniency [[], ['x'], ['A']] NavigationSystem.Gps rfl).1⟩

/-- Claim C5: appending any number of empty fields to the sentence text (as trailing commas) does not change the handler's result: positions beyond the tokenized length behave exactly like empty fields, so truncated sentences decode like their padded counterparts. -/
theorem rmc_truncation_equiv (s : String) (k : Nat) (nav : NavigationSystem) :
    handle (s ++ String.mk (List.replicate k ',')) nav = handle s nav := by
  unfold handle
  have hdata : (s ++ String.mk (List.replicate k ',')).data = s.data ++ List.replicate k ',' := by
    cases s
    rfl
  rw [hdata, splitFields_append_commas]
  apply handleFields_congr
  intro i _ _
  exact getField_append_replicate (splitFields s.data) k i

/-- Claim C6: the handler returns exactly one of a fully constructed record or a decode failure, and the first sub-decoder failure aborts the whole call with that failure (shown for the status decoder, the first fallible one, and for the latitude decoder when status succeeded). -/
theorem rmc_result_exclusive (fields : List (List Char)) (nav : NavigationSystem) :
    ((∃ r, handleFields fields nav = .ok (.Rmc r)) ∨
      (∃ e, handleFields fields nav = .error e)) ∧
    (¬ ((∃ r, handleFields fields nav = .ok (.Rmc r)) ∧
      (∃ e, handleFields fields nav = .error e))) ∧
    (∀ e, decodeStatus (getField fields 2) = .error e → handleFields fields nav = .error e) ∧
    (∀ st e, decodeStatus (getField fields 2) = .ok st →
      parse_latitude_ddmm_mmm (getField fields 3) (getField fields 4) = .error e →
      handleFields fields nav = .error e) := by
  refine ⟨handleFields_cases fields nav, ?_, ?_, ?_⟩
  · rintro ⟨⟨r, hr⟩, ⟨e, he⟩⟩
    rw [hr] at he
    cases he
  · intro e he
    simp [handleFields, he]
  · intro st e hst hlat
    simp [handleFields, hst, hlat]

/-- Witness for C6: an unrecognized status letter `Q` makes the status decoder fail, and the handler call returns exactly that failure. -/
theorem rmc_result_exclusive_witness :
    decodeStatus (getField [[], [], ['Q']] 2) =
      .error ("Invalid RMC navigation receiver status: " ++ String.mk ['Q']) ∧
    handleFields [[], [], ['Q']] NavigationSystem.Gps =
      .error ("Invalid RMC navigation receiver status: " ++ String.mk ['Q']) :=
  ⟨rfl, (rmc_result_exclusive [[], [], ['Q']] NavigationSystem.Gps).2.2.1 _ rfl⟩

/-- Claim C7: the handler tokenizes the sentence text on commas with empty substrings preserved (joining the fields back with commas restores the text, and no field contains a comma), and reads its inputs from the fixed 1-indexed positions: time at 1, status at 2, latitude numeral at 3 with hemisphere at 4, longitude numeral at 5 with hemisphere at 6, speed at 7, track angle at 8, date at 9, variation magnitude at 10 with sign at 11. -/
theorem rmc_field_positions :
    (∀ (s : String) (nav : NavigationSystem),
      handle s nav = handleFields (splitFields s.data) nav) ∧
    (∀ cs : List Char,
      List.intercalate [','] (splitFields cs) = cs ∧ ∀ f ∈ splitFields cs, ',' ∉ f) ∧
    (∀ (fields : List (List Char)) (nav : NavigationSystem) (r : RmcData),
      handleFields fields nav = .ok (.Rmc r) →
      r.timestamp = (parse_yymmdd_hhmmss (getField fields 9) (getField fields 1)).toOption ∧
      decodeStatus (getField fields 2) = .ok r.status_active ∧
      parse_latitude_ddmm_mmm (getField fields 3) (getField fields 4) = .ok r.latitude ∧
      parse_longitude_dddmm_mmm (getField fields 5) (getField fields 6) = .ok r.longitude ∧
      pick_number_field fields 7 = .ok r.sog_knots ∧
      pick_number_field fields 8 = .ok r.bearing ∧
      decodeVariation fields = .ok r.variation) := by
  refine ⟨fun s nav => rfl, fun cs => ⟨?_, splitFields_no_comma cs⟩, ?_⟩
  · rw [splitFields_eq_splitOn]
    exact List.intercalate_splitOn cs ','
  · intro fields nav r hok
    exact (handleFields_ok_projections fields nav r hok).2

/-- Witness for C7: on a concrete token list the status attribute is exactly the status decoder's output at position 2. -/
theorem rmc_field_positions_witness :
    handleFields [[], [], ['A']] NavigationSystem.Gps =
      .ok (.Rmc ⟨NavigationSystem.Gps, none, some true, none, none, none, none, none⟩) ∧
    decodeStatus (getField [[], [], ['A']] 2) =
      .ok (⟨NavigationSystem.Gps, none, some true, none, none, none, none, none⟩
        : RmcData).status_active :=
  ⟨rfl, (rmc_field_positions.2.2 [[], [], ['A']] NavigationSystem.Gps _ rfl).2.1⟩

/-- Claim C8: the handler is a pure, deterministic function of the sentence text and the navigation-system tag: two invocations on identical inputs yield equal results. -/
theorem rmc_handle_deterministic (s : String) (nav : NavigationSystem)
    (r₁ r₂ : Except ParseError ParsedMessage)
    (h₁ : handle s nav = r₁) (h₂ : handle s nav = r₂) : r₁ = r₂ := by
  rw [← h₁, ← h₂]

/-- Witness for C8: two decodes of the same concrete sentence agree. -/
theorem rmc_handle_deterministic_witness :
    handle "$GPRMC,,A" NavigationSystem.Gps =
      .ok (.Rmc ⟨NavigationSystem.Gps, none, some true, none, none, none, none, none⟩) ∧
    (Except.ok (ParsedMessage.Rmc
        ⟨NavigationSystem.Gps, none, some true, none, none, none, none, none⟩)
      : Except ParseError ParsedMessage) =
      .ok (.Rmc ⟨NavigationSystem.Gps, none, some true, none, none, none, none, none⟩) :=
  ⟨rfl, rmc_handle_deterministic "$GPRMC,,A" NavigationSystem.Gps _ _ rfl rfl⟩

/-- Claim C9: decoding the pre-validated sentence of Scenario A succeeds with status `Some(true)`, timestamp 2020-11-19T22:54:46Z, speed over ground 0.5, track angle within 0.1 of 54.7, and variation 20.3. -/
theorem rmc_scenario_a :
    parse_sentence "$GPRMC,225446,A,4916.45,N,12311.12,W,000.5,054.7,191120,020.3,E*67"
        NavigationSystem.Gps =
      .ok (.Rmc ⟨NavigationSystem.Gps, some ⟨2020, 11, 19, 22, 54, 46⟩, some true,
        some (((49 : ℕ) : ℚ) + (((16 : ℕ) : ℚ) + ((45 : ℕ) : ℚ) / ((100 : ℕ) : ℚ)) / 60),
        some (-(((123 : ℕ) : ℚ) + (((11 : ℕ) : ℚ) + ((12 : ℕ) : ℚ) / ((100 : ℕ) : ℚ)) / 60)),
        some (((0 : ℕ) : ℚ) + ((5 : ℕ) : ℚ) / ((10 : ℕ) : ℚ)),
        some (((54 : ℕ) : ℚ) + ((7 : ℕ) : ℚ) / ((10 : ℕ) : ℚ)),
        some (((20 : ℕ) : ℚ) + ((3 : ℕ) : ℚ) / ((10 : ℕ) : ℚ))⟩) ∧
    ((0 : ℕ) : ℚ) + ((5 : ℕ) : ℚ) / ((10 : ℕ) : ℚ) = 1 / 2 ∧
    |(((54 : ℕ) : ℚ) + ((7 : ℕ) : ℚ) / ((10 : ℕ) : ℚ)) - 547 / 10| ≤ 1 / 10 ∧
    ((20 : ℕ) : ℚ) + ((3 : ℕ) : ℚ) / ((10 : ℕ) : ℚ) = 203 / 10 := by
  refine ⟨rfl, ?_, ?_, ?_⟩
  · push_cast
    norm_num
  · push_cast
    norm_num
  · push_cast
    norm_num

/-- Claim C10: when the variation magnitude (position 10) parses but the sign field (position 11) is empty or absent, the handler call fails; when the magnitude field is empty, the sign field is never examined — overwriting it with anything leaves the result unchanged, and a successful record carries variation `None`. -/
theorem rmc_variation_sign_dependency (fields : List (List Char)) (nav : NavigationSystem) :
    (∀ v, parseDecimal (getField fields 10) = some v → getField fields 11 = [] →
      ∃ e, handleFields fields nav = .error e) ∧
    (getField fields 10 = [] →
      (∀ x, handleFields (setField fields 11 x) nav = handleFields fields nav) ∧
      (∀ r, handleFields fields nav = .ok (.Rmc r) → r.variation = none)) := by
  constructor
  · intro v hv hs
    obtain ⟨e0, he0⟩ := decodeVariation_error_of_bad_side fields v hv (by simp [hs])
    apply exists_error_of_no_ok
    intro m hm
    obtain ⟨st, lat, lon, sog, br, va, _, _, _, _, _, h6, _⟩ :=
      (handleFields_ok_iff fields nav m).1 hm
    rw [he0] at h6
    cases h6
  · intro h10
    constructor
    · intro x
      have g : ∀ i, i ≠ 11 → getField (setField fields 11 x) i = getField fields i := by
        intro i hi
        rw [getField_setField, if_neg (fun hc => hi hc.symm)]
      have hp : pick_number_field fields 10 = .ok none :=
        (pick_number_field_ok_none_iff fields 10).2 h10
      have hp' : pick_number_field (setField fields 11 x) 10 = .ok none := by
        rw [pick_number_field_congr (setField fields 11 x) fields 10 (g 10 (by norm_num))]
        exact hp
      have hvar : decodeVariation (setField fields 11 x) = decodeVariation fields := by
        simp only [decodeVariation, hp', hp]
      have h7 : pick_number_field (setField fields 11 x) 7 = pick_number_field fields 7 :=
        pick_number_field_congr _ _ 7 (g 7 (by norm_num))
      have h8 : pick_number_field (setField fields 11 x) 8 = pick_number_field fields 8 :=
        pick_number_field_congr _ _ 8 (g 8 (by norm_num))
      simp only [handleFields, g 1 (by norm_num), g 2 (by norm_num), g 3 (by norm_num),
        g 4 (by norm_num), g 5 (by norm_num), g 6 (by norm_num), g 9 (by norm_num),
        h7, h8, hvar]
    · intro r hok
      have hp := (handleFields_ok_projections fields nav r hok).2.2.2.2.2.2.2
      rw [(decodeVariation_ok_none_iff fields).2 h10] at hp
      injection hp with h
      exact h.symm

/-- Witness for C10: with an empty magnitude field, writing the unrecognized letter `Q` into the sign field leaves the handler's result unchanged. -/
theorem rmc_variation_sign_dependency_witness :
    getField ([] : List (List Char)) 10 = [] ∧
    handleFields (setField [] 11 ['Q']) NavigationSystem.Gps =
      handleFields [] NavigationSystem.Gps :=
  ⟨rfl, ((rmc_variation_sign_dependency [] NavigationSystem.Gps).2 rfl).1 ['Q']⟩

/-- Counterexample to C2 as stated: in the sentence `$GPRMC,,A,,,,,,,xx` the date source field (position 9) is present (`xx`) yet unparsable, and the handler succeeds with timestamp `None` instead of failing — so the timestamp is `None` without its source fields being empty, and a present-but-unparsable component did not cause a decode failure. -/
theorem rmc_optional_iff_counterexample :
    handle "$GPRMC,,A,,,,,,,xx" NavigationSystem.Gps =
      .ok (.Rmc ⟨NavigationSystem.Gps, none, some true, none, none, none, none, none⟩) ∧
    getField (splitFields ("$GPRMC,,A,,,,,,,xx").data) 9 = ['x', 'x'] :=
  ⟨rfl, rfl⟩

/-- Claim C2 (amended): every optional attribute except the timestamp is `None` exactly when its governing source field was empty (status letter at 2, coordinate numerals at 3 and 5, numerals at 7 and 8, variation magnitude at 10), while the timestamp is `None` exactly when the date/time pair fails to combine; a present-but-unparsable numeral in those governed fields, a present-but-unrecognized status letter, an invalid hemisphere with a present coordinate numeral, or an unrecognized variation sign with a present magnitude, is a decode failure for the whole record. -/
theorem rmc_optional_fields_policy (fields : List (List Char)) (nav : NavigationSystem) :
    (∀ r, handleFields fields nav = .ok (.Rmc r) →
      ((r.timestamp = none ↔
          (parse_yymmdd_hhmmss (getField fields 9) (getField fields 1)).toOption = none) ∧
       (r.status_active = none ↔ getField fields 2 = []) ∧
       (r.latitude = none ↔ getField fields 3 = []) ∧
       (r.longitude = none ↔ getField fields 5 = []) ∧
       (r.sog_knots = none ↔ getField fields 7 = []) ∧
       (r.bearing = none ↔ getField fields 8 = []) ∧
       (r.variation = none ↔ getField fields 10 = []))) ∧
    (getField fields 2 ≠ [] → getField fields 2 ∉ ([[ 'A'], ['D'], ['V']] : List (List Char)) →
      ∃ e, handleFields fields nav = .error e) ∧
    (getField fields 3 ≠ [] →
      parse_dm_value (getField fields 3) = none ∨
        getField fields 4 ∉ ([[ 'N'], ['S']] : List (List Char)) →
      ∃ e, handleFields fields nav = .error e) ∧
    (getField fields 5 ≠ [] →
      parse_dm_value (getField fields 5) = none ∨
        getField fields 6 ∉ ([[ 'E'], ['W']] : List (List Char)) →
      ∃ e, handleFields fields nav = .error e) ∧
    (getField fields 7 ≠ [] → parseDecimal (getField fields 7) = none →
      ∃ e, handleFields fields nav = .error e) ∧
    (getField fields 8 ≠ [] → parseDecimal (getField fields 8) = none →
      ∃ e, handleFields fields nav = .error e) ∧
    (getField fields 10 ≠ [] → parseDecimal (getField fields 10) = none →
      ∃ e, handleFields fields nav = .error e) ∧
    (∀ v, parseDecimal (getField fields 10) = some v →
      getField fields 11 ∉ ([[ 'E'], ['W']] : List (List Char)) →
      ∃ e, handleFields fields nav = .error e) := by
  refine ⟨?_, ?_, ?_, ?_, ?_, ?_, ?_, ?_⟩
  · intro r hok
    obtain ⟨hsrc, hts, hst, hlat, hlon, hsog, hbr, hvar⟩ :=
      handleFields_ok_projections fields nav r hok
    refine ⟨?_, ?_, ?_, ?_, ?_, ?_, ?_⟩
    · rw [hts]
    · constructor
      · intro hn
        rw [hn] at hst
        exact (decodeStatus_ok_none_iff _).1 hst
      · intro he
        rw [he] at hst
        simp [decodeStatus] at hst
        exact hst.symm
    · constructor
      · intro hn
        rw [hn] at hlat
        exact (parse_latitude_ok_none_iff _ _).1 hlat
      · intro he
        rw [he] at hlat
        simp [parse_latitude_ddmm_mmm] at hlat
        exact hlat.symm
    · constructor
      · intro hn
        rw [hn] at hlon
        exact (parse_longitude_ok_none_iff _ _).1 hlon
      · intro he
        rw [he] at hlon
        simp [parse_longitude_dddmm_mmm] at hlon
        exact hlon.symm
    · constructor
      · intro hn
        rw [hn] at hsog
        exact (pick_number_field_ok_none_iff _ _).1 hsog
      · intro he
        rw [(pick_number_field_ok_none_iff fields 7).2 he] at hsog
        injection hsog with h
        exact h.symm
    · constructor
      · intro hn
        rw [hn] at hbr
        exact (pick_number_field_ok_none_iff _ _).1 hbr
      · intro he
        rw [(pick_number_field_ok_none_iff fields 8).2 he] at hbr
        injection hbr with h
        exact h.symm
    · constructor
      · intro hn
        rw [hn] at hvar
        exact (decodeVariation_ok_none_iff _).1 hvar
      · intro he
        rw [(decodeVariation_ok_none_iff fields).2 he] at hvar
        injection hvar with h
        exact h.symm
  · intro h0 hmem
    simp only [List.mem_cons, List.not_mem_nil, or_false, not_or] at hmem
    obtain ⟨hA, hD, hV⟩ := hmem
    have he := decodeStatus_error_of_invalid _ h0 hA hD hV
    apply exists_error_of_no_ok
    intro m hm
    obtain ⟨st, lat, lon, sog, br, va, h1, _, _, _, _, _, _⟩ :=
      (handleFields_ok_iff fields nav m).1 hm
    rw [he] at h1
    cases h1
  · intro h0 hbad
    obtain ⟨e0, he0⟩ := parse_latitude_error_of_invalid _ _ h0 hbad
    apply exists_error_of_no_ok
    intro m hm
    obtain ⟨st, lat, lon, sog, br, va, _, h2, _, _, _, _, _⟩ :=
      (handleFields_ok_iff fields nav m).1 hm
    rw [he0] at h2
    cases h2
  · intro h0 hbad
    obtain ⟨e0, he0⟩ := parse_longitude_error_of_invalid _ _ h0 hbad
    apply exists_error_of_no_ok
    intro m hm
    obtain ⟨st, lat, lon, sog, br, va, _, _, h3, _, _, _, _⟩ :=
      (handleFields_ok_iff fields nav m).1 hm
    rw [he0] at h3
    cases h3
  · intro h0 hbad
    have he := pick_number_field_error_of_unparsable fields 7 h0 hbad
    apply exists_error_of_no_ok
    intro m hm
    obtain ⟨st, lat, lon, sog, br, va, _, _, _, h4, _, _, _⟩ :=
      (handleFields_ok_iff fields nav m).1 hm
    rw [he] at h4
    cases h4
  · intro h0 hbad
    have he := pick_number_field_error_of_unparsable fields 8 h0 hbad
    apply exists_error_of_no_ok
    intro m hm
    obtain ⟨st, lat, lon, sog, br, va, _, _, _, _, h5, _, _⟩ :=
      (handleFields_ok_iff fields nav m).1 hm
    rw [he] at h5
    cases h5
  · intro h0 hbad
    have he := pick_number_field_error_of_unparsable fields 10 h0 hbad
    have he' : decodeVariation fields = .error ("Failed to parse field " ++ toString 10) := by
      simp [decodeVariation, he]
    apply exists_error_of_no_ok
    intro m hm
    obtain ⟨st, lat, lon, sog, br, va, _, _, _, _, _, h6, _⟩ :=
      (handleFields_ok_iff fields nav m).1 hm
    rw [he'] at h6
    cases h6
  · intro v hv hmem
    obtain ⟨e0, he0⟩ := decodeVariation_error_of_bad_side fields v hv hmem
    apply exists_error_of_no_ok
    intro m hm
    obtain ⟨st, lat, lon, sog, br, va, _, _, _, _, _, h6, _⟩ :=
      (handleFields_ok_iff fields nav m).1 hm
    rw [he0] at h6
    cases h6

/-- Witness for the amended C2: on a concrete successful decode the variation is `None` exactly when the magnitude field is empty. -/
theorem rmc_optional_fields_policy_witness :
    handleFields [[], [], ['A']] NavigationSystem.Gps =
      .ok (.Rmc ⟨NavigationSystem.Gps, none, some true, none, none, none, none, none⟩) ∧
    ((⟨NavigationSystem.Gps, none, some true, none, none, none, none, none⟩
        : RmcData).variation = none ↔ getField [[], [], ['A']] 10 = []) :=
  ⟨rfl, ((rmc_optional_fields_policy [[], [], ['A']] NavigationSystem.Gps).1 _ rfl).2.2.2.2.2.2⟩

end Nmea
